import Mathlib

/-!
Shallow embedding of `install-fedora-zfsbootmenu.py` and verification of the
claims about its specification.

The script is a sequential installer.  All of its OS interaction goes through
a small set of "Execution Gateway" primitive functions (`sys`, `sys_output`,
`cat_to_file`, `mkdir`, `chmod`, ...), each of which first logs a shell-style
transcript line and then, only when `CONFIG.dry_mode` is false, performs the
real OS action.  We embed the primitives as pure functions producing traces of
`GEvent`s (log lines and OS actions), and the orchestration functions as pure
functions producing traces of gateway calls (`Call`).

String operations are implemented over `String.data` so that every definition
evaluates by kernel reduction on concrete inputs.
-/

namespace FZBM

/-- Helper for `splitlines`: `cur` is the reversed current line. -/
def splitlinesAux (cur : List Char) : List Char → List String
  | [] => if cur = [] then [] else [String.mk cur.reverse]
  | c :: rest =>
    if c = '\n' then String.mk cur.reverse :: splitlinesAux [] rest
    else splitlinesAux (c :: cur) rest

/-- Python `str.splitlines` restricted to `"\n"` line boundaries (the only
boundary character occurring in the script's strings): `""` has no lines, a
trailing newline does not open an extra empty line. -/
def splitlines (s : String) : List String :=
  splitlinesAux [] s.data

/-- Python `s[:-1]`: the string with its final character removed (`""` stays
`""`). -/
def dropLastChar (s : String) : String :=
  String.mk s.data.dropLast

/-- Whether the string's final character is a newline. -/
def endsWithNewline (s : String) : Bool :=
  s.data.getLast? = some '\n'

/-- An observable event of an Execution Gateway primitive: either a transcript
log line (`LOGGER.info`) or a real OS action. -/
inductive GEvent where
  | log (line : String)
  | exec (args : List String) (shell : Bool)
  | fileWrite (path : String) (contents : String)
  | dirCreate (path : String)
  deriving DecidableEq, Repr

/-- Whether a gateway event is a pure transcript line (no OS mutation). -/
def GEvent.isLog : GEvent → Bool
  | .log _ => true
  | _ => false

/-- The command transcript line logged by `sys` and `sys_output`:
`" ".join(arg if " " not in arg else f'"{arg}"' for arg in args)`. -/
def shellLine (args : List String) : String :=
  String.intercalate " "
    (args.map fun a => if a.data.contains ' ' then "\"" ++ a ++ "\"" else a)

/-- `sys(*args, ignore_exit_code=...)`: logs the command line, and only when
not in dry mode spawns the external program. -/
def sysRun (dry_mode : Bool) (args : List String) : List GEvent :=
  [.log (shellLine args)] ++ if !dry_mode then [.exec args false] else []

/-- Whether `sys` in live mode aborts (raises `CalledProcessError`) when the
invoked program exits with code `exitCode`.  The source runs
`subprocess.check_call(args)` (which raises on a non-zero exit code) when
`ignore_exit_code` is true, and `subprocess.call(args)` (which discards the
exit code) when it is false. -/
def sysLiveAborts (ignore_exit_code : Bool) (exitCode : Nat) : Bool :=
  if ignore_exit_code then exitCode != 0 else false

/-- `cat_to_file(file, contents)`: logs a heredoc transcript, and only when
not in dry mode writes the file. -/
def cat_to_file (dry_mode : Bool) (file : String) (contents : String) :
    List GEvent :=
  [.log ("cat > " ++ file ++ " << EOF")]
    ++ (splitlines contents).map .log
    ++ [.log "EOF"]
    ++ if !dry_mode then [.fileWrite file contents] else []

/-- `mkdir(path)`: logs, and only when not in dry mode creates the
directory. -/
def mkdirRun (dry_mode : Bool) (path : String) : List GEvent :=
  [.log ("mkdir --parents " ++ path)]
    ++ if !dry_mode then [.dirCreate path] else []

/-- The value `sys_output` returns in live mode when the program wrote `raw`
to standard output: `subprocess.check_output(args).decode()[: -len("\n")]`,
i.e. `raw` with its final character removed. -/
def sysOutputLive (raw : String) : String := dropLastChar raw

/-- A string with one terminating newline removed, when it has one.  This is
what the specification's phrase "trimmed standard output" describes. -/
def trimTrailingNewline (s : String) : String :=
  if endsWithNewline s then dropLastChar s else s

/-- `sys_output(*args, dry_mode_output=..., shell=...)`: logs the command
line; in live mode spawns the program and takes its trimmed output, in dry
mode takes the caller-supplied placeholder; then logs every line of the taken
output prefixed with `#> ` and returns it.  `raw` is the standard output the
program would produce in live mode. -/
def sys_output (dry_mode : Bool) (args : List String) (dry_mode_output : String)
    (shell : Bool) (raw : String) : List GEvent × String :=
  let output := if !dry_mode then sysOutputLive raw else dry_mode_output
  ([.log (shellLine args)]
      ++ (if !dry_mode then [.exec args shell] else [])
      ++ (splitlines output).map (fun l => .log ("#> " ++ l)),
    output)

/-- `ZfsPool` from the script's data model.  Disks and paths are strings; the
`mountpoint` field models Python's `Union[Path, "none", "legacy", None]` as an
`Option` (`none` here is Python `None`, which is the only falsy value the
field can take). -/
structure ZfsPool where
  name : String
  disks : List String
  mountpoint : Option String := none
  kind : String := "single"
  password : String := ""
  pool_properties : List (String × String) := []
  file_system_properties : List (String × String) := []
  deriving DecidableEq, Repr

/-- `User` from the script's data model. -/
structure User where
  name : String
  comment : String := ""
  password : String := ""
  wheel : Bool := true
  deriving DecidableEq, Repr

/-- `Config` from the script's data model. -/
structure Config where
  root_pool : ZfsPool
  data_pools : List ZfsPool := []
  swap_size : String := "1G"
  root_password : String := ""
  users : List User := []
  packages : List String := []
  locale : String := "en_US.UTF-8"
  keymap : String := "us"
  timezone : String := "UTC"
  hostname : String := "localhost"
  zero_disks : Bool := false
  dry_mode : Bool := true
  deriving DecidableEq, Repr

/-- `CONFIG_POOLS = (CONFIG.root_pool, *CONFIG.data_pools)`. -/
def Config.pools (cfg : Config) : List ZfsPool :=
  cfg.root_pool :: cfg.data_pools

/-- `NEW_SYSTEM_ROOT = Path("/rpool")`. -/
def NEW_SYSTEM_ROOT : String := "/rpool"

/-- A call made by an orchestration function into the Execution Gateway. -/
inductive Call where
  | sys (args : List String) (ignore_exit_code : Bool)
  | sysOutput (args : List String) (dry_mode_output : String)
  | catToFile (file : String) (contents : String)
  | chmodCall (path : String) (mode : Nat)
  | mkdirCall (path : String)
  | copy2 (src : String) (dst : String)
  | sleepSecs (secs : Nat)
  deriving DecidableEq, Repr

/-!  ### Configuration validation (`check_config_for_errors`)  -/

/-- The inner `for disk in pool.disks` loop: threads the `seen_disks` set
(as a list) and raises on a disk already seen. -/
def checkDisks : List String → List String → Option String × List String
  | [], seen => (none, seen)
  | d :: rest, seen =>
    if d ∈ seen then (some ("Disk " ++ d ++ " configured multiple times."), seen)
    else checkDisks rest (d :: seen)

/-- The `for pool in CONFIG_POOLS` loop of `check_config_for_errors`,
threading `seen_pool_names` and `seen_disks` and returning the first raised
error message, if any. -/
def checkPools : List ZfsPool → List String → List String → Option String
  | [], _, _ => none
  | pool :: rest, seenNames, seenDisks =>
    if pool.name ∈ seenNames then
      some ("Name " ++ pool.name ++ " configured for multiple pools.")
    else if pool.disks = [] then
      some ("Pool " ++ pool.name ++ " configured without disks.")
    else if pool.kind = "single" ∧ pool.disks.length > 1 then
      some ("Pool " ++ pool.name ++ " kind single configured with more than one disk.")
    else if pool.kind ≠ "single" ∧ pool.disks.length = 1 then
      some ("Pool " ++ pool.name ++ " kind " ++ pool.kind ++ " configured with only one disk.")
    else
      match checkDisks pool.disks seenDisks with
      | (some e, _) => some e
      | (none, seenDisks') => checkPools rest (pool.name :: seenNames) seenDisks'

/-- The `for user in CONFIG.users` loop: raises on a duplicate user name. -/
def checkUsers : List User → List String → Option String
  | [], _ => none
  | user :: rest, seenNames =>
    if user.name ∈ seenNames then
      some ("Name " ++ user.name ++ " configured for multiple users.")
    else checkUsers rest (user.name :: seenNames)

/-- `check_config_for_errors()`: returns the message of the first raised
configuration error, or `none` when the configuration is valid.  The source
function only reads `CONFIG` and raises; it performs no Execution Gateway
call, which the embedding reflects by producing no `Call` trace at all. -/
def check_config_for_errors (cfg : Config) : Option String :=
  match checkPools cfg.pools [] [] with
  | some e => some e
  | none => checkUsers cfg.users []

/-!  ### Orchestration functions  -/

/-- `blkdiscard_and_zero_disks()`: per disk of every pool, a `blkdiscard`
(default `ignore_exit_code=True`) and, when `zero_disks` is set, a `dd`
invocation issued with `ignore_exit_code=False`. -/
def blkdiscard_and_zero_disks (cfg : Config) : List Call :=
  cfg.pools.flatMap fun pool =>
    pool.disks.flatMap fun disk =>
      [Call.sys ["blkdiscard", "--force", disk] true]
        ++ if cfg.zero_disks then
            [Call.sys ["dd", "if=/dev/zero", "of=" ++ disk, "bs=4096",
                "status=progress"] false]
          else []

/-- The `sgdisk` call creating the EFI partition of a disk. -/
def efiPartCall (disk : String) : Call :=
  Call.sys ["sgdisk", "--new=0:1M:+512M", "--typecode=0:EF00",
      "--change-name=0:EFI System Partition", disk] true

/-- The `sgdisk` call creating the swap partition of a disk. -/
def swapPartCall (swap_size : String) (disk : String) : Call :=
  Call.sys ["sgdisk", "--new=0:0:+" ++ swap_size, "--typecode=0:8200",
      "--change-name=0:Swap", disk] true

/-- The `sgdisk` call creating the pool-member partition of a disk. -/
def poolPartCall (poolName : String) (disk : String) : Call :=
  Call.sys ["sgdisk", "--new=0:0:0", "--typecode=0:BF00",
      "--change-name=0:ZFS Pool " ++ poolName, disk] true

/-- The gateway calls `partition_root_pool_disks` issues for one disk:
zap the table, create the EFI partition, create the swap partition when a
swap size is configured, create the pool-member partition. -/
def partitionDiskCalls (swap_size : String) (poolName : String)
    (disk : String) : List Call :=
  [Call.sys ["sgdisk", "--zap-all", disk] true, efiPartCall disk]
    ++ (if swap_size ≠ "" then [swapPartCall swap_size disk] else [])
    ++ [poolPartCall poolName disk]

/-- `partition_root_pool_disks()`: the per-disk loop followed by the 2-second
sleep for the kernel to register the new layout. -/
def partition_root_pool_disks (cfg : Config) : List Call :=
  cfg.root_pool.disks.flatMap
      (partitionDiskCalls cfg.swap_size cfg.root_pool.name)
    ++ [Call.sleepSecs 2]

/-- `("-o"|"-O", f"{key}={value}")` pairs accumulated for a property mapping
(`for key, value in ...: args += (flag, f"{key}={value}")`). -/
def propertyArgs (flag : String) : List (String × String) → List String
  | [] => []
  | p :: ps => [flag, p.1 ++ "=" ++ p.2] ++ propertyArgs flag ps

/-- `Path(f"/etc/zfs/{pool.name}.key")`. -/
def keyFilePath (pool : ZfsPool) : String :=
  "/etc/zfs/" ++ pool.name ++ ".key"

/-- The `zpool create` argument vector assembled by `zpool_create` for a
given optional key file. -/
def zpoolCreateArgs (pool : ZfsPool) (key_file : Option String)
    (altroot : Option String) (partition : String) : List String :=
  ["zpool", "create", "-f"]
    ++ propertyArgs "-o" pool.pool_properties
    ++ propertyArgs "-O" pool.file_system_properties
    ++ (match key_file with
        | some kf =>
          ["-O", "encryption=aes-256-gcm", "-O", "keyformat=passphrase",
           "-O", "keylocation=file://" ++ kf]
        | none => [])
    ++ (match pool.mountpoint with | some m => ["-m", m] | none => [])
    ++ (match altroot with | some r => ["-R", r] | none => [])
    ++ [pool.name]
    ++ (if pool.kind ≠ "single" then [pool.kind] else [])
    ++ pool.disks.map (· ++ partition)

/-- `zpool_create(pool, altroot=..., partition=...)`: writes and protects the
key file when a password is configured, then issues the `zpool create`
command; returns the gateway calls and the optional key file path. -/
def zpool_create (pool : ZfsPool) (altroot : Option String)
    (partition : String) : List Call × Option String :=
  let key_file : Option String :=
    if pool.password ≠ "" then some (keyFilePath pool) else none
  let keyCalls : List Call :=
    match key_file with
    | some kf => [Call.catToFile kf (pool.password ++ "\n"), Call.chmodCall kf 0]
    | none => []
  (keyCalls ++ [Call.sys (zpoolCreateArgs pool key_file altroot partition) true],
   key_file)

/-- `zfs_create(pool, filesystem, properties=...)`. -/
def zfs_create (pool : ZfsPool) (filesystem : String)
    (properties : List (String × String)) : Call :=
  Call.sys (["zfs", "create"] ++ propertyArgs "-o" properties
      ++ [pool.name ++ "/" ++ filesystem]) true

/-- The property mapping of the root filesystem `ROOT/fedora_<suffix>`, in the
source's insertion order. -/
def rootFsProps : List (String × String) :=
  [("mountpoint", "/"), ("canmount", "noauto"),
   ("org.zfsbootmenu:rootprefix", "root=zfs:"),
   ("org.zfsbootmenu:commandline", "ro quiet")]

/-- The alphabet `ascii_lowercase + digits` that
`choices(ascii_lowercase + digits, k=6)` draws the root filesystem name
suffix from. -/
def suffixAlphabet : List Char := "abcdefghijklmnopqrstuvwxyz0123456789".data

/-- `create_zfs_pools_and_file_systems()`.  `suffix` stands for the result of
`''.join(choices(ascii_lowercase + digits, k=6))`; the returned pair is the
gateway-call trace and the list of key files of encrypted pools
(`[f for f in pool_key_files if f is not None]`). -/
def create_zfs_pools_and_file_systems (cfg : Config) (suffix : String) :
    List Call × List String :=
  let rootCreate := zpool_create cfg.root_pool (some NEW_SYSTEM_ROOT)
      (if cfg.swap_size ≠ "" then "-part3" else "-part2")
  let dataCreates := cfg.data_pools.map fun p => zpool_create p none ""
  let pool_key_files := rootCreate.2 :: dataCreates.map (·.2)
  let root_fs_name := "ROOT/fedora_" ++ suffix
  ([Call.sys ["zgenhostid"] true]
      ++ rootCreate.1
      ++ dataCreates.flatMap (·.1)
      ++ [zfs_create cfg.root_pool "ROOT" [("mountpoint", "none")],
          zfs_create cfg.root_pool root_fs_name rootFsProps,
          Call.sys ["zfs", "mount", cfg.root_pool.name ++ "/" ++ root_fs_name]
            true,
          Call.sys ["zpool", "set",
              "bootfs=" ++ cfg.root_pool.name ++ "/" ++ root_fs_name,
              cfg.root_pool.name] true,
          zfs_create cfg.root_pool "home" [("mountpoint", "/home")],
          zfs_create cfg.root_pool "home/root" [("mountpoint", "/root")]]
      ++ cfg.users.map (fun u => zfs_create cfg.root_pool ("home/" ++ u.name) []),
    pool_key_files.reduceOption)

/-- The EFI-partition UUID obtained for `disk`: the `sys_output` of `blkid` on
`<disk>-part1`, which in dry mode is the placeholder `"A48C-0D61"` and in live
mode the (trimmed) real `blkid` output, modelled by the oracle `blkidUuid`. -/
def efiUuid (cfg : Config) (blkidUuid : String → String) (disk : String) :
    String :=
  if cfg.dry_mode then "A48C-0D61" else blkidUuid (disk ++ "-part1")

/-- The loop body of `setup_efi_partitions_and_install_zfsbootmenu` for one
disk of the root pool. -/
def setupEfiDiskCalls (cfg : Config) (blkidUuid : String → String)
    (zbmImage : String) (disk : String) : List Call :=
  let uuid := efiUuid cfg blkidUuid disk
  let disk_efi_dir := NEW_SYSTEM_ROOT ++ "/boot/efis/" ++ uuid
  [Call.sys ["mkfs.fat", "-F", "32", "-s", "1", "-n", "EFI", disk ++ "-part1"]
      true,
   Call.sysOutput ["blkid", "--match-tag", "UUID", "--output", "value",
       disk ++ "-part1"] "A48C-0D61",
   Call.mkdirCall disk_efi_dir,
   Call.sys ["mount", disk ++ "-part1", disk_efi_dir] true,
   Call.copy2 zbmImage disk_efi_dir,
   Call.sys ["efibootmgr", "--create", "--disk", disk, "--part", "1",
       "--label", "ZFSBootMenu (" ++ uuid ++ ")",
       "--loader", "\\" ++ zbmImage] true]

/-- The `for disk in CONFIG.root_pool.disks` loop of
`setup_efi_partitions_and_install_zfsbootmenu`, accumulating the gateway
calls and the `efi_disk_uuids` list in iteration order. -/
def setupEfiLoop (cfg : Config) (blkidUuid : String → String)
    (zbmImage : String) : List String → List Call × List String
  | [] => ([], [])
  | disk :: rest =>
    let tail := setupEfiLoop cfg blkidUuid zbmImage rest
    (setupEfiDiskCalls cfg blkidUuid zbmImage disk ++ tail.1,
     efiUuid cfg blkidUuid disk :: tail.2)

/-- `setup_efi_partitions_and_install_zfsbootmenu()`: downloads the
ZFSBootMenu image, runs the per-disk loop, and returns the ordered EFI UUID
list.  `zbmImage` stands for the image file name (from the glob in live mode,
`"zbfsbootmenu.efi"` in dry mode). -/
def setup_efi_partitions_and_install_zfsbootmenu (cfg : Config)
    (blkidUuid : String → String) (zbmImage : String) :
    List Call × List String :=
  let loop := setupEfiLoop cfg blkidUuid zbmImage cfg.root_pool.disks
  ([Call.sys ["curl", "--remote-name", "--remote-header-name", "--location",
       "https://get.zfsbootmenu.org/efi"] true]
      ++ loop.1,
   loop.2)

/-- An EFI mount line of the generated fstab (including its newline). -/
def efiFstabLine (uuid : String) : String :=
  "/dev/disk/by-uuid/" ++ uuid ++ " /boot/efis/" ++ uuid
    ++ " vfat umask=0077,shortname=winnt,nofail 0 2\n"

/-- A cryptswap line of the generated fstab (including its newline); `i` is
the zero-based loop index. -/
def cryptswapFstabLine (i : Nat) : String :=
  "/dev/mapper/cryptswap" ++ toString (i + 1)
    ++ " none swap x-systemd.requires=cryptsetup.target,defaults 0 0\n"

/-- `write_fstab(efi_disk_uuids)`: accumulates one EFI mount line per
`zip(CONFIG.root_pool.disks, efi_disk_uuids)` entry, then - when a swap size
is configured - one cryptswap line per root-pool disk, and writes the result
to `<NEW_SYSTEM_ROOT>/etc/fstab`. -/
def write_fstab (cfg : Config) (efi_disk_uuids : List String) : List Call :=
  let contents := (cfg.root_pool.disks.zip efi_disk_uuids).foldl
      (fun acc du => acc ++ efiFstabLine du.2) ""
  let contents :=
    if cfg.swap_size ≠ "" then
      (List.range cfg.root_pool.disks.length).foldl
        (fun acc i => acc ++ cryptswapFstabLine i) contents
    else contents
  [Call.catToFile (NEW_SYSTEM_ROOT ++ "/etc/fstab") contents]

/-- Python `str.index` for a single character: the index of its first
occurrence, or `none` (a raised `ValueError`) when absent. -/
def strIndexOfAux (c : Char) : List Char → Nat → Option Nat
  | [], _ => none
  | x :: rest, i => if x = c then some i else strIndexOfAux c rest (i + 1)

/-- See `strIndexOfAux`. -/
def strIndexOf (s : String) (c : Char) : Option Nat :=
  strIndexOfAux c s.data 0

/-- `CONFIG.locale[: CONFIG.locale.index("_")]`: the language part of the
locale, or a raised `ValueError` when the locale has no underscore.  The
computation does not depend on `dry_mode`. -/
def localeLang (locale : String) : Except String String :=
  match strIndexOf locale '_' with
  | none => .error "ValueError: substring not found"
  | some i => .ok (String.mk (locale.data.take i))

/-- `dnf_install(*args, installroot=..., releasever=...)` (a `releasever` of
`0` is falsy in Python and would be omitted). -/
def dnf_install (args : List String) (installroot : Option String)
    (releasever : Option Nat) : Call :=
  Call.sys (["dnf", "install", "--assumeyes"]
      ++ (match installroot with
          | some r => ["--installroot=" ++ r]
          | none => [])
      ++ (match releasever with
          | some v => if v = 0 then [] else ["--releasever=" ++ toString v]
          | none => [])
      ++ args) true

/-- `install_packages(version_id)`: computes the locale language (which
raises on an underscore-free locale, in dry and live mode alike), then issues
the `dnf install` into the new system root and the repo-file fixup for Fedora
releases above 37. -/
def install_packages (cfg : Config) (version_id : Nat) :
    Except String (List Call) :=
  match localeLang cfg.locale with
  | .error e => .error e
  | .ok locale_lang =>
    .ok ([dnf_install
            (["https://zfsonlinux.org/fedora/zfs-release-2-2.fc"
                ++ toString (min version_id 37) ++ ".noarch.rpm",
              "@core", "kernel", "kernel-devel", "kexec-tools", "efibootmgr",
              "glibc-minimal-langpack", "glibc-langpack-" ++ locale_lang,
              "zfs", "zfs-dracut"] ++ cfg.packages)
            (some NEW_SYSTEM_ROOT) (some version_id)]
        ++ if version_id > 37 then
            [Call.sys ["sed", "--in-place", "s/$releasever/37/g",
                NEW_SYSTEM_ROOT ++ "/etc/yum.repos.d/zfs.repo"] true]
          else [])

/-- An OS-level action of the `chroot` context manager. -/
inductive OsAction where
  | logLine (s : String)
  | openRootHandle
  | chdirPath (p : String)
  | chdirHandle
  | chrootCwd
  | closeHandle
  deriving DecidableEq, Repr

/-- Whether an action changes the process root. -/
def OsAction.changesRoot : OsAction → Bool
  | .chrootCwd => true
  | _ => false

/-- The `chroot(newroot)` context manager run around a body producing the
trace `body.1` and, when `body.2 = some e`, raising the exception `e`.  Entry
logs and opens a handle to the current root, changes into the new root only
in live mode; the `finally` block runs on both exit paths: it logs, restores
the original root only in live mode, and closes the handle; a body exception
is then re-raised. -/
def chroot (dry_mode : Bool) (newroot : String)
    (body : List OsAction × Option String) : List OsAction × Option String :=
  ([.logLine ("chroot " ++ newroot), .openRootHandle]
      ++ (if !dry_mode then [.chdirPath newroot, .chrootCwd] else [])
      ++ body.1
      ++ [.logLine ("exit  # chroot " ++ newroot)]
      ++ (if !dry_mode then [.chdirHandle, .chrootCwd] else [])
      ++ [.closeHandle],
   body.2)

/-- The statement-level phases of `main()`, in source order. -/
def mainPhases : List String :=
  ["check_config_for_errors", "setenforce 0", "read version_id",
   "install_zfs_to_live_environment", "blkdiscard_and_zero_disks",
   "partition_root_pool_disks", "create_zfs_pools_and_file_systems",
   "setup_efi_partitions_and_install_zfsbootmenu", "rbind mounts",
   "install_packages", "write_crypttab", "write_fstab",
   "write_dracut_zfs_conf", "write_zfs_mount_generator_cache",
   "copy hostid and key files",
   "run_systemd_firstboot_and_enable_services", "chroot section",
   "snapshot before first boot", "umount and export"]

/-!  ### Derived notions used by the theorems  -/

/-- Whether a gateway call is an `sgdisk` partition-creation command: an
external-program call whose first option (argument index 1) is `--new=...`.
Every `sgdisk` invocation of the script has its option there. -/
def Call.isPartCreate : Call → Bool
  | .sys args _ =>
    match args.get? 1 with
    | some a => "--new=".data.isPrefixOf a.data
    | none => false
  | _ => false

/-- The partition-creation commands the partitioning plan issues for one
disk. -/
def partCreates (swap_size poolName disk : String) : List Call :=
  (partitionDiskCalls swap_size poolName disk).filter Call.isPartCreate

/-- The three encryption-related option values of an encrypted pool. -/
def encStrings (pool : ZfsPool) : List String :=
  ["encryption=aes-256-gcm", "keyformat=passphrase",
   "keylocation=file://" ++ keyFilePath pool]

/-- Concatenation of a list of (newline-terminated) lines. -/
def concatLines (ls : List String) : String := ls.foldr (· ++ ·) ""

/-- A possible result of `''.join(choices(ascii_lowercase + digits, k=6))`:
six characters drawn from the alphabet by the random picks `pick`. -/
def suffixFromPicks (pick : Nat → Fin suffixAlphabet.length) : String :=
  String.mk ((List.range 6).map fun i => suffixAlphabet.get (pick i))

/-- The conditions under which `check_config_for_errors` raises, as the code
has them: a duplicate pool name, a disk occurring more than once across all
pools' disk lists (also twice within one pool), any pool with no disks, a
`single`-kind pool with more than one disk, a non-`single`-kind pool with
exactly one disk, or a duplicate user name. -/
def configViolation (cfg : Config) : Prop :=
  ¬ (cfg.pools.map (·.name)).Nodup
  ∨ ¬ (cfg.pools.flatMap (·.disks)).Nodup
  ∨ (∃ p ∈ cfg.pools, p.disks = [])
  ∨ (∃ p ∈ cfg.pools, p.kind = "single" ∧ p.disks.length > 1)
  ∨ (∃ p ∈ cfg.pools, p.kind ≠ "single" ∧ p.disks.length = 1)
  ∨ ¬ (cfg.users.map (·.name)).Nodup

/-- The raising conditions exactly as the claim words them: a duplicate pool
name, a disk assigned to more than one pool, a `single`-kind pool with more
than one disk or no disks, a non-`single`-kind pool with exactly one disk, or
a duplicate user name. -/
def claimedViolation (cfg : Config) : Prop :=
  ¬ (cfg.pools.map (·.name)).Nodup
  ∨ (∃ d ∈ cfg.pools.flatMap (·.disks),
      1 < (cfg.pools.countP fun p => decide (d ∈ p.disks)))
  ∨ (∃ p ∈ cfg.pools, p.kind = "single" ∧ (p.disks.length > 1 ∨ p.disks = []))
  ∨ (∃ p ∈ cfg.pools, p.kind ≠ "single" ∧ p.disks.length = 1)
  ∨ ¬ (cfg.users.map (·.name)).Nodup

/-- A concrete live-mode configuration with disk zeroing enabled, used to
exhibit the `dd` invocation of `blkdiscard_and_zero_disks`. -/
def zeroDisksCfg : Config :=
  { root_pool := { name := "rpool", disks := ["/dev/sda"], kind := "single" },
    zero_disks := true,
    dry_mode := false }

/-- A configuration whose data pool is a `mirror` with no disks: the code
rejects it, but none of the claim's raising conditions hold for it. -/
def noDiskMirrorCfg : Config :=
  { root_pool := { name := "rpool", disks := ["/dev/sda"], kind := "single" },
    data_pools := [{ name := "rdata", disks := [], kind := "mirror" }] }

/-- A concrete encrypted pool used to instantiate the key-file theorem. -/
def encPool : ZfsPool :=
  { name := "tank", disks := ["/dev/sda"], kind := "single",
    mountpoint := some "none",
    password := "change this pass",
    pool_properties := [("ashift", "12")],
    file_system_properties := [("compression", "zstd")] }

/-- A concrete unencrypted pool used to instantiate the key-file theorem. -/
def plainPool : ZfsPool :=
  { name := "rdata", disks := ["/dev/sdb", "/dev/sdc"], kind := "mirror" }

/-- A concrete configuration whose locale contains no underscore. -/
def badLocaleCfg : Config :=
  { root_pool := { name := "rpool", disks := ["/dev/sda"], kind := "single" },
    locale := "C.UTF-8" }

/-!  ### Theorems  -/

/-- Filtering a list of log events for log events keeps all of them. -/
theorem filter_isLog_of_map_log (f : String → String) (l : List String) :
    ((l.map fun s => GEvent.log (f s)).filter GEvent.isLog)
      = l.map fun s => GEvent.log (f s) := by
  induction l with
  | nil => rfl
  | cons x xs ih => simp [List.filter, GEvent.isLog, ih]

/-- A list of log events consists only of log events. -/
theorem all_isLog_of_map_log (f : String → String) (l : List String) :
    (l.map fun s => GEvent.log (f s)).all GEvent.isLog = true := by
  induction l with
  | nil => rfl
  | cons x xs ih => simp [GEvent.isLog, ih]

/-- Specialization of `filter_isLog_of_map_log` to the identity. -/
theorem filter_isLog_map_log (l : List String) :
    (l.map GEvent.log).filter GEvent.isLog = l.map GEvent.log :=
  filter_isLog_of_map_log (fun s => s) l

/-- C1: In simulation (dry) mode no Execution Gateway primitive performs an
OS mutation - `sys` spawns no external program, `cat_to_file` writes no file,
`mkdir` creates no directory, and `sys_output` returns the caller-supplied
`dry_mode_output` placeholder instead of real output - while each primitive
still emits its command transcript line exactly as in live mode (and
`sys_output`'s captured-output transcript lines are the placeholder's
lines). -/
theorem dry_mode_performs_no_os_mutation (args : List String)
    (file contents path dmo raw : String) (shell : Bool) :
    ((sysRun true args).all GEvent.isLog
      ∧ sysRun true args = (sysRun false args).filter GEvent.isLog)
  ∧ ((cat_to_file true file contents).all GEvent.isLog
      ∧ cat_to_file true file contents
          = (cat_to_file false file contents).filter GEvent.isLog)
  ∧ ((mkdirRun true path).all GEvent.isLog
      ∧ mkdirRun true path = (mkdirRun false path).filter GEvent.isLog)
  ∧ ((sys_output true args dmo shell raw).1.all GEvent.isLog
      ∧ (sys_output true args dmo shell raw).2 = dmo
      ∧ (sys_output true args dmo shell raw).1.head?
          = some (.log (shellLine args))
      ∧ (sys_output false args dmo shell raw).1.head?
          = some (.log (shellLine args))
      ∧ (sys_output true args dmo shell raw).1.tail
          = (splitlines dmo).map fun l => .log ("#> " ++ l)) := by
  refine ⟨⟨rfl, rfl⟩, ⟨?_, ?_⟩, ⟨rfl, rfl⟩, ?_, rfl, rfl, rfl, ?_⟩
  · simp [cat_to_file, GEvent.isLog, all_isLog_of_map_log]
  · simp [cat_to_file, GEvent.isLog, List.filter_append, List.filter,
      filter_isLog_map_log]
  · simp [sys_output, GEvent.isLog, all_isLog_of_map_log]
  · simp [sys_output]

/-- C2 (code bug): the branches of `sys` are swapped relative to the meaning
of its `ignore_exit_code` flag.  With `ignore_exit_code=False` the source
runs `subprocess.call`, which discards a non-zero exit code, so the
disk-zeroing `dd` invocation (issued with `ignore_exit_code=False` by
`blkdiscard_and_zero_disks`) does NOT propagate a failure; and with the
default `ignore_exit_code=True` a non-zero exit code aborts instead of being
tolerated. -/
theorem sys_exit_code_branches_swapped :
    sysLiveAborts false 1 = false
  ∧ sysLiveAborts true 1 = true
  ∧ Call.sys ["dd", "if=/dev/zero", "of=/dev/sda", "bs=4096",
        "status=progress"] false
      ∈ blkdiscard_and_zero_disks zeroDisksCfg := by
  refine ⟨rfl, rfl, ?_⟩
  simp [blkdiscard_and_zero_disks, zeroDisksCfg, Config.pools]

/-- C8: the `chroot` context manager's entry logs and acquires a handle to
the current root, and on every exit path - the body finishing normally or
raising - the `finally` block logs, restores the original root (only in live
mode), and closes the handle, re-raising any body exception; in dry mode
entry and exit log but never change the process root. -/
theorem chroot_restores_root_on_every_exit (dry_mode : Bool)
    (newroot : String) (body : List OsAction × Option String) :
    (chroot dry_mode newroot body).2 = body.2
  ∧ (chroot dry_mode newroot body).1.getLast? = some .closeHandle
  ∧ (chroot dry_mode newroot body).1.head?
      = some (.logLine ("chroot " ++ newroot))
  ∧ (chroot true newroot body).1
      = [.logLine ("chroot " ++ newroot), .openRootHandle]
          ++ body.1
          ++ [.logLine ("exit  # chroot " ++ newroot), .closeHandle]
  ∧ (chroot true newroot body).1.filter OsAction.changesRoot
      = body.1.filter OsAction.changesRoot
  ∧ (chroot false newroot body).1
      = [.logLine ("chroot " ++ newroot), .openRootHandle,
          .chdirPath newroot, .chrootCwd]
          ++ body.1
          ++ [.logLine ("exit  # chroot " ++ newroot), .chdirHandle,
              .chrootCwd, .closeHandle] := by
  have htrue : (chroot true newroot body).1
      = [.logLine ("chroot " ++ newroot), .openRootHandle]
          ++ body.1
          ++ [.logLine ("exit  # chroot " ++ newroot), .closeHandle] := by
    simp [chroot]
  have hfalse : (chroot false newroot body).1
      = [.logLine ("chroot " ++ newroot), .openRootHandle,
          .chdirPath newroot, .chrootCwd]
          ++ body.1
          ++ [.logLine ("exit  # chroot " ++ newroot), .chdirHandle,
              .chrootCwd, .closeHandle] := by
    simp [chroot]
  refine ⟨rfl, ?_, ?_, htrue, ?_, hfalse⟩
  · cases dry_mode
    · rw [hfalse, List.getLast?_append_of_ne_nil] <;> simp
    · rw [htrue, List.getLast?_append_of_ne_nil] <;> simp
  · cases dry_mode
    · rw [hfalse]; rfl
    · rw [htrue]; rfl
  · rw [htrue]
    simp [List.filter_append, List.filter, OsAction.changesRoot]

/-- The zap-table call creates no partition. -/
theorem isPartCreate_zap (disk : String) :
    (Call.sys ["sgdisk", "--zap-all", disk] true).isPartCreate = false := rfl

/-- The EFI call is a partition-creation command. -/
theorem isPartCreate_efi (disk : String) :
    (efiPartCall disk).isPartCreate = true := rfl

/-- The pool-member call is a partition-creation command. -/
theorem isPartCreate_pool (poolName disk : String) :
    (poolPartCall poolName disk).isPartCreate = true := rfl

/-- The swap call is a partition-creation command, whatever the configured
swap size. -/
theorem isPartCreate_swap (swap_size disk : String) :
    (swapPartCall swap_size disk).isPartCreate = true := by
  show ("--new=".data.isPrefixOf ("--new=0:0:+" ++ swap_size).data) = true
  rw [ List.isPrefixOf_iff_prefix, String.data_append]
  exact List.IsPrefix.trans (by decide : "--new=".data <+: "--new=0:0:+".data)
    (List.prefix_append _ _)

/-- The partition-creation commands for one disk, in issue order. -/
theorem partCreates_eq (swap_size poolName disk : String) :
    partCreates swap_size poolName disk
      = if swap_size ≠ "" then
          [efiPartCall disk, swapPartCall swap_size disk,
           poolPartCall poolName disk]
        else [efiPartCall disk, poolPartCall poolName disk] := by
  by_cases h : swap_size = "" <;>
    simp [partCreates, partitionDiskCalls, h, List.filter_append, List.filter,
      isPartCreate_zap, isPartCreate_efi, isPartCreate_pool, isPartCreate_swap]

/-- C4: per root-pool disk the partitioning plan issues exactly 3
partition-creation commands when a swap size is configured and exactly 2
otherwise; the pool-member partition is created last; numbering is positional
(command 1 = EFI, command 2 = swap when configured else pool member, command
3 = pool member only when swap is configured); and the subsequent root-pool
creation references the partition suffix `-part<number of partitions>`, i.e.
`-part3` with swap and `-part2` without. -/
theorem partition_plan_positional (cfg : Config) (suffix : String)
    (disk : String) :
    (partCreates cfg.swap_size cfg.root_pool.name disk).length
      = (if cfg.swap_size ≠ "" then 3 else 2)
  ∧ (partCreates cfg.swap_size cfg.root_pool.name disk).getLast?
      = some (poolPartCall cfg.root_pool.name disk)
  ∧ (partCreates cfg.swap_size cfg.root_pool.name disk).head?
      = some (efiPartCall disk)
  ∧ (partCreates cfg.swap_size cfg.root_pool.name disk).get? 1
      = some (if cfg.swap_size ≠ "" then swapPartCall cfg.swap_size disk
              else poolPartCall cfg.root_pool.name disk)
  ∧ (partCreates cfg.swap_size cfg.root_pool.name disk).get? 2
      = (if cfg.swap_size ≠ "" then some (poolPartCall cfg.root_pool.name disk)
         else none)
  ∧ (zpool_create cfg.root_pool (some NEW_SYSTEM_ROOT)
        ("-part"
          ++ toString (partCreates cfg.swap_size cfg.root_pool.name disk).length)).1
      <+: ((create_zfs_pools_and_file_systems cfg suffix).1.drop 1) := by
  have hpc := partCreates_eq cfg.swap_size cfg.root_pool.name disk
  by_cases h : cfg.swap_size = ""
  · rw [hpc]
    refine ⟨by simp [h], by simp [h], by simp [h], by simp [h], by simp [h], ?_⟩
    have hlen : (if cfg.swap_size ≠ "" then
            [efiPartCall disk, swapPartCall cfg.swap_size disk,
             poolPartCall cfg.root_pool.name disk]
          else [efiPartCall disk, poolPartCall cfg.root_pool.name disk]).length
        = 2 := by rw [if_neg (by simp [h])]; rfl
    rw [hlen, (by decide : "-part" ++ toString (2 : Nat) = "-part2")]
    simp only [create_zfs_pools_and_file_systems, h, ne_eq, not_true_eq_false,
      ite_false, List.append_assoc, List.singleton_append, List.drop_succ_cons,
      List.drop_zero]
    exact List.prefix_append _ _
  · rw [hpc]
    refine ⟨by simp [h], by simp [h], by simp [h], by simp [h], by simp [h], ?_⟩
    have hlen : (if cfg.swap_size ≠ "" then
            [efiPartCall disk, swapPartCall cfg.swap_size disk,
             poolPartCall cfg.root_pool.name disk]
          else [efiPartCall disk, poolPartCall cfg.root_pool.name disk]).length
        = 3 := by rw [if_pos h]; rfl
    rw [hlen, (by decide : "-part" ++ toString (3 : Nat) = "-part3")]
    simp only [create_zfs_pools_and_file_systems, h, ne_eq, not_false_eq_true,
      ite_true, List.append_assoc, List.singleton_append, List.drop_succ_cons,
      List.drop_zero]
    exact List.prefix_append _ _

/-- Strings of different lengths differ. -/
theorem ne_of_length_ne {a b : String} (h : a.length ≠ b.length) : a ≠ b :=
  fun he => h (congrArg String.length he)

/-- Every encryption-related option value has at least 19 characters. -/
theorem encStrings_length (pool : ZfsPool) (s : String)
    (hs : s ∈ encStrings pool) : 19 ≤ s.length := by
  simp only [encStrings, List.mem_cons, List.mem_singleton,
    List.not_mem_nil, or_false] at hs
  rcases hs with rfl | rfl | rfl
  · decide
  · decide
  · rw [String.length_append]
    have h19 : ("keylocation=file://").length = 19 := by decide
    omega

/-- An encryption-related option value differs from every short string. -/
theorem encStrings_ne_short (pool : ZfsPool) (s : String)
    (hs : s ∈ encStrings pool) (t : String) (ht : t.length < 19) : s ≠ t :=
  ne_of_length_ne (by have := encStrings_length pool s hs; omega)

/-- Characterization of membership in a property argument block. -/
theorem mem_propertyArgs {x flag : String} {props : List (String × String)}
    (hx : x ∈ propertyArgs flag props) :
    x = flag ∨ ∃ p ∈ props, x = p.1 ++ "=" ++ p.2 := by
  induction props with
  | nil => cases hx
  | cons q qs ih =>
    simp only [propertyArgs, List.cons_append, List.singleton_append,
      List.mem_cons] at hx
    rcases hx with rfl | rfl | hx
    · exact Or.inl rfl
    · exact Or.inr ⟨q, List.mem_cons_self _ _, rfl⟩
    · rcases ih hx with h | ⟨p, hp, he⟩
      · exact Or.inl h
      · exact Or.inr ⟨p, List.mem_cons_of_mem _ hp, he⟩

/-- C5: for a pool with a non-empty password, `zpool_create` first writes the
key file `/etc/zfs/<pool>.key` with contents the passphrase plus a newline,
then removes all its permission bits (`chmod 0`), and only then issues the
pool-creation command, whose argument vector includes the three
encryption-related options; for a pool with an empty password no key file is
written (the trace is the single pool-creation command) and, provided the
pool's own fields do not literally spell one of the three option values, none
of them appears in the argument vector. -/
theorem zpool_create_key_file (pool : ZfsPool) (altroot : Option String)
    (partition : String)
    (hne : ∀ s ∈ encStrings pool,
      (∀ p ∈ pool.pool_properties ++ pool.file_system_properties,
          s ≠ p.1 ++ "=" ++ p.2)
      ∧ s ≠ pool.name ∧ s ≠ pool.kind
      ∧ (∀ m ∈ pool.mountpoint.toList, s ≠ m)
      ∧ (∀ r ∈ altroot.toList, s ≠ r)
      ∧ (∀ d ∈ pool.disks, s ≠ d ++ partition)) :
    (pool.password ≠ "" →
        (zpool_create pool altroot partition).1
          = [Call.catToFile (keyFilePath pool) (pool.password ++ "\n"),
             Call.chmodCall (keyFilePath pool) 0,
             Call.sys (zpoolCreateArgs pool (some (keyFilePath pool)) altroot
                 partition) true]
      ∧ (zpool_create pool altroot partition).2 = some (keyFilePath pool)
      ∧ ∀ s ∈ encStrings pool,
          s ∈ zpoolCreateArgs pool (some (keyFilePath pool)) altroot partition)
  ∧ (pool.password = "" →
        (zpool_create pool altroot partition).1
          = [Call.sys (zpoolCreateArgs pool none altroot partition) true]
      ∧ (zpool_create pool altroot partition).2 = none
      ∧ ∀ s ∈ encStrings pool,
          s ∉ zpoolCreateArgs pool none altroot partition) := by
  constructor
  · intro hpw
    refine ⟨by simp [zpool_create, hpw], by simp [zpool_create, hpw], ?_⟩
    intro s hs
    simp only [encStrings, List.mem_cons, List.mem_singleton,
      List.not_mem_nil, or_false] at hs
    rcases hs with rfl | rfl | rfl <;> simp [zpoolCreateArgs]
  · intro hpw
    refine ⟨by simp [zpool_create, hpw], by simp [zpool_create, hpw], ?_⟩
    intro s hs hmem
    obtain ⟨hprops, hname, hkind, hmount, haltroot, hdisks⟩ := hne s hs
    have hshort := encStrings_ne_short pool s hs
    simp only [zpoolCreateArgs, List.append_assoc, List.cons_append,
      List.nil_append, List.mem_cons, List.mem_append, List.mem_map,
      List.mem_singleton] at hmem
    rcases hmem with rfl | rfl | rfl | hmem
    · exact hshort "zpool" (by decide) rfl
    · exact hshort "create" (by decide) rfl
    · exact hshort "-f" (by decide) rfl
    rcases hmem with hmem | hmem
    · rcases mem_propertyArgs hmem with rfl | ⟨p, hp, he⟩
      · exact hshort "-o" (by decide) rfl
      · exact hprops p (List.mem_append_left _ hp) he
    rcases hmem with hmem | hmem
    · rcases mem_propertyArgs hmem with rfl | ⟨p, hp, he⟩
      · exact hshort "-O" (by decide) rfl
      · exact hprops p (List.mem_append_right _ hp) he
    rcases hmem with hmem | hmem
    · rcases hmp : pool.mountpoint with _ | m
      · rw [hmp] at hmem; cases hmem
      · rw [hmp] at hmem
        simp only [List.mem_cons, List.mem_singleton, List.not_mem_nil,
          or_false] at hmem
        rcases hmem with rfl | rfl
        · exact hshort "-m" (by decide) rfl
        · exact hmount s (by rw [hmp]; exact List.mem_singleton_self _) rfl
    rcases hmem with hmem | hmem
    · rcases altroot with _ | r
      · cases hmem
      · simp only [List.mem_cons, List.mem_singleton, List.not_mem_nil,
          or_false] at hmem
        rcases hmem with rfl | rfl
        · exact hshort "-R" (by decide) rfl
        · exact haltroot s (List.mem_singleton_self _) rfl
    rcases hmem with rfl | hmem
    · exact hname rfl
    rcases hmem with hmem | ⟨d, hd, he⟩
    · by_cases hk : pool.kind ≠ "single"
      · rw [if_pos hk] at hmem
        simp only [List.mem_singleton] at hmem
        exact hkind hmem
      · rw [if_neg hk] at hmem
        cases hmem
    · exact hdisks d hd he.symm

/-- C5 witness: the theorem applied to a concrete encrypted pool and to a
concrete unencrypted pool. -/
theorem zpool_create_key_file_witness :
    (zpool_create encPool (some NEW_SYSTEM_ROOT) "-part2").2
        = some "/etc/zfs/tank.key"
  ∧ (zpool_create plainPool none "").2 = none := by
  constructor
  · exact ((zpool_create_key_file encPool (some NEW_SYSTEM_ROOT) "-part2"
      (by decide)).1 (by decide)).2.1
  · exact ((zpool_create_key_file plainPool none ""
      (by decide)).2 (by decide)).2.1

/-- The per-disk loop returns one EFI UUID per disk, in iteration order. -/
theorem setupEfiLoop_snd (cfg : Config) (blkidUuid : String → String)
    (zbmImage : String) (disks : List String) :
    (setupEfiLoop cfg blkidUuid zbmImage disks).2
      = disks.map (efiUuid cfg blkidUuid) := by
  induction disks with
  | nil => rfl
  | cons d ds ih => simp [setupEfiLoop, ih]

/-- The empty string is a left identity of string concatenation. -/
theorem empty_append_str (s : String) : "" ++ s = s := by
  cases s with
  | mk data => rfl

/-- A `contents += line` loop is the concatenation of its lines. -/
theorem foldl_append_eq_concatLines {α : Type} (f : α → String) (l : List α)
    (init : String) :
    l.foldl (fun acc x => acc ++ f x) init = init ++ concatLines (l.map f) := by
  induction l generalizing init with
  | nil => simp [concatLines]
  | cons x xs ih =>
    simp only [List.foldl_cons, List.map_cons, concatLines, List.foldr_cons]
    rw [ih, ← String.append_assoc]
    rfl

/-- C6: for a root pool with K disks the Boot Provisioner returns exactly K
EFI-partition UUIDs in the same order as the configured disks (the i-th UUID
is obtained from the i-th disk), and `write_fstab` applied to this list
writes an fstab whose EFI section is the concatenation of exactly K EFI mount
lines, the line of each UUID mounting `/dev/disk/by-uuid/<uuid>` under
`/boot/efis/<uuid>` (see `efiFstabLine`), followed by the cryptswap section
when a swap size is configured. -/
theorem efi_uuids_order_and_fstab (cfg : Config)
    (blkidUuid : String → String) (zbmImage : String) :
    (setup_efi_partitions_and_install_zfsbootmenu cfg blkidUuid zbmImage).2
      = cfg.root_pool.disks.map (efiUuid cfg blkidUuid)
  ∧ (setup_efi_partitions_and_install_zfsbootmenu cfg blkidUuid zbmImage).2.length
      = cfg.root_pool.disks.length
  ∧ ((setup_efi_partitions_and_install_zfsbootmenu cfg blkidUuid
        zbmImage).2.map efiFstabLine).length = cfg.root_pool.disks.length
  ∧ write_fstab cfg
        (setup_efi_partitions_and_install_zfsbootmenu cfg blkidUuid zbmImage).2
      = [Call.catToFile (NEW_SYSTEM_ROOT ++ "/etc/fstab")
          (concatLines
              ((setup_efi_partitions_and_install_zfsbootmenu cfg blkidUuid
                  zbmImage).2.map efiFstabLine)
            ++ (if cfg.swap_size ≠ "" then
                  concatLines ((List.range cfg.root_pool.disks.length).map
                    cryptswapFstabLine)
                else ""))] := by
  have huuids : (setup_efi_partitions_and_install_zfsbootmenu cfg blkidUuid
      zbmImage).2 = cfg.root_pool.disks.map (efiUuid cfg blkidUuid) := by
    simp [setup_efi_partitions_and_install_zfsbootmenu,
      setupEfiLoop_snd]
  refine ⟨huuids, by simp [huuids], by simp [huuids], ?_⟩
  rw [huuids]
  simp only [write_fstab]
  have hzip : cfg.root_pool.disks.zip
      (cfg.root_pool.disks.map (efiUuid cfg blkidUuid))
      = cfg.root_pool.disks.map fun d => (d, efiUuid cfg blkidUuid d) := by
    have := List.zip_map' id (efiUuid cfg blkidUuid) cfg.root_pool.disks
    simpa using this
  rw [hzip, List.foldl_map]
  simp only [foldl_append_eq_concatLines, empty_append_str]
  by_cases hsw : cfg.swap_size = ""
  · rw [if_neg (by simp [hsw]), if_neg (by simp [hsw])]
    simp [List.map_map, Function.comp_def]
  · rw [if_pos hsw, if_pos hsw]
    simp [List.map_map, Function.comp_def]

/-- C7: the root-pool filesystem creation emits its operations in exactly the
claimed order: after `zgenhostid` and the pool creations come `ROOT` with no
mountpoint; `ROOT/fedora_<suffix>` (the suffix being 6 characters drawn from
the lowercase-alphanumeric alphabet) with mountpoint `/`, not auto-mounted,
tagged with the two boot-loader properties; the explicit mount of that
filesystem; setting it as the pool's `bootfs`; `home` with mountpoint
`/home`; `home/root` with mountpoint `/root`; and one `home/<user>`
filesystem with default mountpoint (no `-o` option) per configured user. -/
theorem create_zfs_filesystem_order (cfg : Config)
    (pick : Nat → Fin suffixAlphabet.length) :
    (suffixFromPicks pick).data.length = 6
  ∧ (∀ c ∈ (suffixFromPicks pick).data, c ∈ suffixAlphabet)
  ∧ (create_zfs_pools_and_file_systems cfg (suffixFromPicks pick)).1
      = Call.sys ["zgenhostid"] true
          :: ((zpool_create cfg.root_pool (some NEW_SYSTEM_ROOT)
                  (if cfg.swap_size ≠ "" then "-part3" else "-part2")).1
            ++ (cfg.data_pools.flatMap fun p => (zpool_create p none "").1)
            ++ [Call.sys ["zfs", "create", "-o", "mountpoint=none",
                  cfg.root_pool.name ++ "/" ++ "ROOT"] true,
                Call.sys ["zfs", "create", "-o", "mountpoint=/",
                  "-o", "canmount=noauto",
                  "-o", "org.zfsbootmenu:rootprefix=root=zfs:",
                  "-o", "org.zfsbootmenu:commandline=ro quiet",
                  cfg.root_pool.name ++ "/"
                    ++ ("ROOT/fedora_" ++ suffixFromPicks pick)] true,
                Call.sys ["zfs", "mount",
                  cfg.root_pool.name ++ "/"
                    ++ ("ROOT/fedora_" ++ suffixFromPicks pick)] true,
                Call.sys ["zpool", "set",
                  "bootfs=" ++ cfg.root_pool.name ++ "/"
                    ++ ("ROOT/fedora_" ++ suffixFromPicks pick),
                  cfg.root_pool.name] true,
                Call.sys ["zfs", "create", "-o", "mountpoint=/home",
                  cfg.root_pool.name ++ "/" ++ "home"] true,
                Call.sys ["zfs", "create", "-o", "mountpoint=/root",
                  cfg.root_pool.name ++ "/" ++ "home/root"] true]
            ++ cfg.users.map fun u =>
                Call.sys ["zfs", "create",
                  cfg.root_pool.name ++ "/" ++ ("home/" ++ u.name)] true) := by
  refine ⟨by simp [suffixFromPicks], ?_, ?_⟩
  · intro c hc
    simp only [suffixFromPicks, String.data] at hc
    rcases List.mem_map.mp hc with ⟨i, _, rfl⟩
    exact List.get_mem suffixAlphabet (pick i).1 (pick i).2
  · simp only [create_zfs_pools_and_file_systems, zfs_create, propertyArgs,
      rootFsProps, List.map_map, List.nil_append, List.cons_append,
      List.singleton_append, List.append_assoc,
      (by decide : "mountpoint" ++ "=" ++ "none" = "mountpoint=none"),
      (by decide : "mountpoint" ++ "=" ++ "/" = "mountpoint=/"),
      (by decide : "canmount" ++ "=" ++ "noauto" = "canmount=noauto"),
      (by decide : "org.zfsbootmenu:rootprefix" ++ "=" ++ "root=zfs:"
        = "org.zfsbootmenu:rootprefix=root=zfs:"),
      (by decide : "org.zfsbootmenu:commandline" ++ "=" ++ "ro quiet"
        = "org.zfsbootmenu:commandline=ro quiet"),
      (by decide : "mountpoint" ++ "=" ++ "/home" = "mountpoint=/home"),
      (by decide : "mountpoint" ++ "=" ++ "/root" = "mountpoint=/root"),
      List.flatMap_map, Function.comp_def]

/-- `str.index` finds nothing exactly when the character is absent. -/
theorem strIndexOfAux_eq_none (c : Char) (l : List Char) (i : Nat) :
    strIndexOfAux c l i = none ↔ c ∉ l := by
  induction l generalizing i with
  | nil => simp [strIndexOfAux]
  | cons x rest ih =>
    by_cases hx : x = c
    · subst hx
      simp [strIndexOfAux]
    · simp only [strIndexOfAux, if_neg hx, ih, List.mem_cons, not_or]
      constructor
      · exact fun hr => ⟨fun he => hx he.symm, hr⟩
      · exact fun hp => hp.2

/-- C10: for every configuration whose locale contains no underscore,
`install_packages` raises (`CONFIG.locale.index("_")` fails with
`ValueError`), identically in dry and live mode; the pre-flight validator
does not depend on the locale at all, so it cannot catch this; and in
`main`'s statement order `install_packages` runs only after
`partition_root_pool_disks` and `create_zfs_pools_and_file_systems` have
already issued their commands. -/
theorem underscore_free_locale_fails_late (cfg : Config) (version_id : Nat)
    (h : ¬ '_' ∈ cfg.locale.data) :
    install_packages cfg version_id = .error "ValueError: substring not found"
  ∧ install_packages { cfg with dry_mode := true } version_id
      = install_packages { cfg with dry_mode := false } version_id
  ∧ (∀ l : String, check_config_for_errors { cfg with locale := l }
      = check_config_for_errors cfg)
  ∧ mainPhases.indexOf "partition_root_pool_disks"
      < mainPhases.indexOf "install_packages"
  ∧ mainPhases.indexOf "create_zfs_pools_and_file_systems"
      < mainPhases.indexOf "install_packages" := by
  refine ⟨?_, rfl, fun l => rfl, by decide, by decide⟩
  have hidx : strIndexOf cfg.locale '_' = none := by
    rw [strIndexOf, strIndexOfAux_eq_none]
    exact h
  simp [install_packages, localeLang, hidx]

/-- C10 witness: a configuration with locale `"C.UTF-8"` fails in
`install_packages`. -/
theorem underscore_free_locale_witness :
    install_packages badLocaleCfg 36
      = .error "ValueError: substring not found" :=
  (underscore_free_locale_fails_late badLocaleCfg 36 (by decide)).1

/-- The disk loop raises nothing exactly when the disks are distinct and all
unseen. -/
theorem checkDisks_none_iff (l : List String) (seen : List String) :
    (checkDisks l seen).1 = none ↔ l.Nodup ∧ ∀ d ∈ l, d ∉ seen := by
  induction l generalizing seen with
  | nil => simp [checkDisks]
  | cons d rest ih =>
    by_cases hd : d ∈ seen
    · simp only [checkDisks, if_pos hd]
      constructor
      · intro he
        cases he
      · rintro ⟨-, hall⟩
        exact absurd hd (hall d (List.mem_cons_self _ _))
    · simp only [checkDisks, if_neg hd]
      rw [ih]
      constructor
      · rintro ⟨hnd, hall⟩
        have hdr : d ∉ rest := fun hmem =>
          hall d hmem (List.mem_cons_self _ _)
        refine ⟨List.nodup_cons.mpr ⟨hdr, hnd⟩, ?_⟩
        intro x hx
        rcases List.mem_cons.mp hx with rfl | hx'
        · exact hd
        · exact fun hmem => hall x hx' (List.mem_cons_of_mem _ hmem)
      · rintro ⟨hnd2, hall2⟩
        obtain ⟨hdr, hnd⟩ := List.nodup_cons.mp hnd2
        refine ⟨hnd, ?_⟩
        intro x hx hmem
        rcases List.mem_cons.mp hmem with rfl | hmem'
        · exact hdr hx
        · exact hall2 x (List.mem_cons_of_mem _ hx) hmem'
    
/-- When the disk loop raises nothing, the seen set is extended by the loop's
disks. -/
theorem checkDisks_snd (l : List String) (seen : List String)
    (h : (checkDisks l seen).1 = none) :
    (checkDisks l seen).2 = l.reverse ++ seen := by
  induction l generalizing seen with
  | nil => simp [checkDisks]
  | cons d rest ih =>
    by_cases hd : d ∈ seen
    · rw [checkDisks, if_pos hd] at h
      cases h
    · rw [checkDisks, if_neg hd] at h ⊢
      rw [ih _ h]
      simp

/-- The user loop raises nothing exactly when the user names are distinct
and all unseen. -/
theorem checkUsers_none_iff (users : List User) (ns : List String) :
    checkUsers users ns = none
      ↔ (users.map (·.name)).Nodup ∧ ∀ u ∈ users, u.name ∉ ns := by
  induction users generalizing ns with
  | nil => simp [checkUsers]
  | cons u rest ih =>
    by_cases hu : u.name ∈ ns
    · simp only [checkUsers, if_pos hu]
      constructor
      · intro he
        cases he
      · rintro ⟨-, hall⟩
        exact absurd hu (hall u (List.mem_cons_self _ _))
    · simp only [checkUsers, if_neg hu]
      rw [ih]
      constructor
      · rintro ⟨hnd, hall⟩
        have hnm : u.name ∉ rest.map (·.name) := by
          intro hmem
          rcases List.mem_map.mp hmem with ⟨x, hx, he⟩
          exact hall x hx (he ▸ List.mem_cons_self _ _)
        refine ⟨?_, ?_⟩
        · rw [List.map_cons]
          exact List.nodup_cons.mpr ⟨hnm, hnd⟩
        · intro x hx
          rcases List.mem_cons.mp hx with rfl | hx'
          · exact hu
          · exact fun hmem => hall x hx' (List.mem_cons_of_mem _ hmem)
      · rintro ⟨hnd2, hall2⟩
        rw [List.map_cons] at hnd2
        obtain ⟨hnm, hnd⟩ := List.nodup_cons.mp hnd2
        refine ⟨hnd, ?_⟩
        intro x hx hmem
        rcases List.mem_cons.mp hmem with he | hmem'
        · exact hnm (he ▸ List.mem_map_of_mem (·.name) hx)
        · exact hall2 x (List.mem_cons_of_mem _ hx) hmem'

/-- The pool loop raises nothing exactly when pool names are distinct and
unseen, all disks are distinct and unseen, and every pool passes the shape
checks (non-empty disks, `single` with one disk, non-`single` with several).
-/
theorem checkPools_none_iff (pools : List ZfsPool) (ns ds : List String) :
    checkPools pools ns ds = none ↔
      ((pools.map (·.name)).Nodup
        ∧ (∀ p ∈ pools, p.name ∉ ns)
        ∧ (pools.flatMap (·.disks)).Nodup
        ∧ (∀ p ∈ pools, ∀ d ∈ p.disks, d ∉ ds)
        ∧ (∀ p ∈ pools, p.disks ≠ []
            ∧ ¬(p.kind = "single" ∧ p.disks.length > 1)
            ∧ ¬(p.kind ≠ "single" ∧ p.disks.length = 1))) := by
  induction pools generalizing ns ds with
  | nil => simp [checkPools]
  | cons pool rest ih =>
    simp only [checkPools]
    by_cases h1 : pool.name ∈ ns
    · rw [if_pos h1]
      constructor
      · intro he
        exact Option.noConfusion he
      · rintro ⟨-, hns, -⟩
        exact absurd h1 (hns pool (List.mem_cons_self _ _))
    rw [if_neg h1]
    by_cases h2 : pool.disks = []
    · rw [if_pos h2]
      constructor
      · intro he
        exact Option.noConfusion he
      · rintro ⟨-, -, -, -, hshape⟩
        exact absurd h2 (hshape pool (List.mem_cons_self _ _)).1
    rw [if_neg h2]
    by_cases h3 : pool.kind = "single" ∧ pool.disks.length > 1
    · rw [if_pos h3]
      constructor
      · intro he
        exact Option.noConfusion he
      · rintro ⟨-, -, -, -, hshape⟩
        exact absurd h3 (hshape pool (List.mem_cons_self _ _)).2.1
    rw [if_neg h3]
    by_cases h4 : pool.kind ≠ "single" ∧ pool.disks.length = 1
    · rw [if_pos h4]
      constructor
      · intro he
        exact Option.noConfusion he
      · rintro ⟨-, -, -, -, hshape⟩
        exact absurd h4 (hshape pool (List.mem_cons_self _ _)).2.2
    rw [if_neg h4]
    rcases hcd : checkDisks pool.disks ds with ⟨fst, snd⟩
    cases fst with
    | some e =>
      constructor
      · intro he
        exact Option.noConfusion he
      · rintro ⟨-, -, hflat, hds, -⟩
        rw [List.flatMap_cons, List.nodup_append] at hflat
        have hfst : (checkDisks pool.disks ds).1 = none :=
          (checkDisks_none_iff _ _).mpr
            ⟨hflat.1, fun d hd => hds pool (List.mem_cons_self _ _) d hd⟩
        rw [hcd] at hfst
        exact Option.noConfusion hfst
    | none =>
      have hfstn : (checkDisks pool.disks ds).1 = none := by rw [hcd]
      obtain ⟨hpdn, hpds⟩ := (checkDisks_none_iff _ _).mp hfstn
      have hsnd : snd = pool.disks.reverse ++ ds := by
        have h5 := checkDisks_snd pool.disks ds hfstn
        rw [hcd] at h5
        exact h5
      subst hsnd
      show checkPools rest (pool.name :: ns) _ = none ↔ _
      rw [ih]
      constructor
      · rintro ⟨hmn, hns, hfl, hdd, hsh⟩
        refine ⟨?_, ?_, ?_, ?_, ?_⟩
        · rw [List.map_cons, List.nodup_cons]
          refine ⟨?_, hmn⟩
          intro hmem
          rcases List.mem_map.mp hmem with ⟨p, hp, he⟩
          exact hns p hp (he ▸ List.mem_cons_self _ _)
        · intro p hp
          rcases List.mem_cons.mp hp with rfl | hp'
          · exact h1
          · exact fun hmem => hns p hp' (List.mem_cons_of_mem _ hmem)
        · rw [List.flatMap_cons, List.nodup_append]
          refine ⟨hpdn, hfl, ?_⟩
          intro a ha hb
          rcases List.mem_flatMap.mp hb with ⟨p, hp, hap⟩
          exact hdd p hp a hap (List.mem_append_left _
            (List.mem_reverse.mpr ha))
        · intro p hp d hd
          rcases List.mem_cons.mp hp with rfl | hp'
          · exact hpds d hd
          · exact fun hmem => hdd p hp' d hd (List.mem_append_right _ hmem)
        · intro p hp
          rcases List.mem_cons.mp hp with rfl | hp'
          · exact ⟨h2, h3, h4⟩
          · exact hsh p hp'
      · rintro ⟨hmn, hns, hfl, hdd, hsh⟩
        rw [List.map_cons, List.nodup_cons] at hmn
        rw [List.flatMap_cons, List.nodup_append] at hfl
        refine ⟨hmn.2, ?_, hfl.2.1, ?_, ?_⟩
        · intro p hp hmem
          rcases List.mem_cons.mp hmem with he | hmem'
          · exact hmn.1 (he ▸ List.mem_map_of_mem (·.name) hp)
          · exact hns p (List.mem_cons_of_mem _ hp) hmem'
        · intro p hp d hd hmem
          rcases List.mem_append.mp hmem with hrev | hds'
          · exact hfl.2.2 (List.mem_reverse.mp hrev)
              (List.mem_flatMap.mpr ⟨p, hp, hd⟩)
          · exact hdd p (List.mem_cons_of_mem _ hp) d hd hds'
        · exact fun p hp => hsh p (List.mem_cons_of_mem _ hp)

/-- C3 (counterexample): the code rejects a `mirror` data pool with no disks
(and generally any pool without disks, whatever its kind), but none of the
claim's raising conditions hold for that configuration, so the claimed
"if and only if" fails. -/
theorem check_config_claim_counterexample :
    (check_config_for_errors noDiskMirrorCfg).isSome = true
  ∧ ¬ claimedViolation noDiskMirrorCfg := by
  constructor
  · decide
  · unfold claimedViolation
    decide

/-- C3 (amended): validation raises a descriptive error if and only if the
configuration has a duplicate pool name, a disk occurring more than once
across the pools' disk lists, any pool with no disks, a `single`-kind pool
with more than one disk, a non-`single`-kind pool with exactly one disk, or a
duplicate user name; validation is a pure pass over the configuration (the
embedding issues no gateway call). -/
theorem check_config_isSome_iff_violation (cfg : Config) :
    (check_config_for_errors cfg).isSome ↔ configViolation cfg := by
  have hnone : check_config_for_errors cfg = none ↔
      ((cfg.pools.map (·.name)).Nodup
        ∧ (cfg.pools.flatMap (·.disks)).Nodup
        ∧ (∀ p ∈ cfg.pools, p.disks ≠ []
            ∧ ¬(p.kind = "single" ∧ p.disks.length > 1)
            ∧ ¬(p.kind ≠ "single" ∧ p.disks.length = 1))
        ∧ (cfg.users.map (·.name)).Nodup) := by
    unfold check_config_for_errors
    rcases hp : checkPools cfg.pools [] [] with _ | e
    · show checkUsers cfg.users [] = none ↔ _
      rw [checkUsers_none_iff]
      obtain ⟨ha, -, hb, -, hc⟩ := (checkPools_none_iff cfg.pools [] []).mp hp
      constructor
      · rintro ⟨hu, -⟩
        exact ⟨ha, hb, hc, hu⟩
      · rintro ⟨-, -, -, hu⟩
        exact ⟨hu, fun u hu' => List.not_mem_nil _⟩
    · show some e = none ↔ _
      constructor
      · intro he
        exact Option.noConfusion he
      · rintro ⟨ha, hb, hc, -⟩
        have hcp : checkPools cfg.pools [] [] = none :=
          (checkPools_none_iff _ _ _).mpr ⟨ha, by simp, hb, by simp, hc⟩
        rw [hp] at hcp
        exact Option.noConfusion hcp
  rw [Option.isSome_iff_ne_none, ne_eq, hnone]
  unfold configViolation
  constructor
  · intro hnot
    rcases Classical.em ((cfg.pools.map (·.name)).Nodup) with hA | hA
    on_goal 2 => exact Or.inl hA
    rcases Classical.em ((cfg.pools.flatMap (·.disks)).Nodup) with hB | hB
    on_goal 2 => exact Or.inr (Or.inl hB)
    rcases Classical.em ((cfg.users.map (·.name)).Nodup) with hD | hD
    on_goal 2 =>
      exact Or.inr (Or.inr (Or.inr (Or.inr (Or.inr hD))))
    have hsh : ¬ ∀ p ∈ cfg.pools, p.disks ≠ []
        ∧ ¬(p.kind = "single" ∧ p.disks.length > 1)
        ∧ ¬(p.kind ≠ "single" ∧ p.disks.length = 1) :=
      fun hs => hnot ⟨hA, hB, hs, hD⟩
    rcases not_forall.mp hsh with ⟨p, hp⟩
    rcases Classical.not_imp.mp hp with ⟨hpmem, hnp⟩
    rcases not_and_or.mp hnp with hc1 | hrest
    · exact Or.inr (Or.inr (Or.inl ⟨p, hpmem, not_not.mp hc1⟩))
    rcases not_and_or.mp hrest with hc2 | hc3
    · exact Or.inr (Or.inr (Or.inr (Or.inl ⟨p, hpmem, not_not.mp hc2⟩)))
    · exact Or.inr (Or.inr (Or.inr (Or.inr (Or.inl
        ⟨p, hpmem, not_not.mp hc3⟩))))
  · intro hviol hconj
    obtain ⟨hA, hB, hsh, hD⟩ := hconj
    rcases hviol with h | h | ⟨p, hp, h⟩ | ⟨p, hp, h⟩ | ⟨p, hp, h⟩ | h
    · exact h hA
    · exact h hB
    · exact (hsh p hp).1 h
    · exact (hsh p hp).2.1 h
    · exact (hsh p hp).2.2 h
    · exact h hD

/-- C9 (counterexample): live-mode `sys_output` does not return the program's
output trimmed of a terminating newline for every output: for the
newline-free output `"abc"` it returns `"ab"`, not `"abc"`. -/
theorem sysOutputLive_not_always_trimmed :
    ¬ sysOutputLive "abc" = trimTrailingNewline "abc" := by decide

/-- C9 (amended): live-mode `sys_output` returns the program's standard
output with its final character removed, and that value equals the output
trimmed of a single terminating newline precisely when the output is empty or
ends with a newline. -/
theorem sysOutputLive_drops_final_char (raw : String) :
    sysOutputLive raw = dropLastChar raw
  ∧ (sysOutputLive raw = trimTrailingNewline raw
      ↔ (endsWithNewline raw = true ∨ raw = "")) := by
  refine ⟨rfl, ?_, ?_⟩
  · intro h
    by_cases hn : endsWithNewline raw = true
    · exact Or.inl hn
    · right
      rw [trimTrailingNewline, if_neg hn] at h
      have hdata : raw.data.dropLast = raw.data := by
        have := congrArg String.data h
        simpa [sysOutputLive, dropLastChar] using this
      have hlen := congrArg List.length hdata
      rw [List.length_dropLast] at hlen
      have hzero : raw.data.length = 0 := by omega
      have hnil : raw.data = [] := List.length_eq_zero.mp hzero
      cases raw with
      | mk data =>
        have hd : data = [] := hnil
        subst hd
        rfl
  · rintro (hn | rfl)
    · rw [trimTrailingNewline, if_pos hn]
      rfl
    · rfl

end FZBM

namespace FZBM

example : splitlines "a\nb\n" = ["a", "b"] := by decide
example : splitlines "" = [] := by decide
example : splitlines "a" = ["a"] := by decide
example : splitlines "\n" = [""] := by decide
example : sysOutputLive "abc\n" = "abc" := by decide
example : sysOutputLive "abc" = "ab" := by decide
example : (sys_output true ["blkid"] "A48C-0D61" false "X\n").2 = "A48C-0D61" := by
  decide

end FZBM
